import Mathlib

/-!
Verification of the download-session orchestrator of `src/main.py` (YT2MP3 /
Youtify).  The Python source is shallowly embedded: the progress store is a
function from session identifiers to optional entries, request handlers are
pure functions returning the list of store writes they perform together with
the HTTP response, and the external extraction engine (`youtube_downloader`)
is a parameter recording the outcome of each of its operations and the event
stream it feeds to the progress hook.
-/

/-! ### Python string primitives used by `main.py` -/

/-- Characters accepted by Python `str.strip()` in the ASCII range (the file
only ever strips titles already filtered down to ASCII-safe characters). -/
def isPySpace (c : Char) : Bool :=
  c = ' ' || c = '\t' || c = '\n' || c = '\r' || c = '\x0b' || c = '\x0c'

/-- Model of Python `str.strip()` on the character list: drop whitespace from
both ends. -/
def pyStrip (cs : List Char) : List Char :=
  ((cs.dropWhile isPySpace).reverse.dropWhile isPySpace).reverse

/-- Model of Python `s.replace('%', '')` (line 80): removing every occurrence
of a single character is filtering it out. -/
def stripPercent (s : String) : String :=
  (s.data.filter (fun c => c ≠ '%')).asString

/-- Character filter of `main.py` lines 153 and 223:
`c.isalnum() or c in "._- "`.  Python `str.isalnum` is modelled on the ASCII
alphanumerics, which is exact for every claim in scope. -/
def pyKeep (c : Char) : Bool :=
  c.isAlphanum || c = '.' || c = '_' || c = '-' || c = ' '

/-- Title sanitizer of `save_audio` line 153:
`"".join(c for c in info['title'] if c.isalnum() or c in "._- ").strip()`. -/
def clean_title (title : String) : String :=
  (pyStrip (title.data.filter pyKeep)).asString

/-- Model of `os.path.join(directory, filename)` for an absolute directory
without a trailing separator and a relative filename, the only shape the
handlers produce. -/
def pjoin (dir name : String) : String :=
  dir ++ "/" ++ name

/-- Model of `os.path.basename`: the characters after the last `/`. -/
def basename (p : String) : String :=
  ((p.data.reverse.takeWhile (fun c => c ≠ '/')).reverse).asString

/-- Model of `os.path.splitext` for names without path separators: split at
the last dot, except that a name whose characters before that dot are all
dots (for example `.bashrc`) has no extension. -/
def splitext (s : String) : String × String :=
  let cs := s.data
  match ((List.range cs.length).filter (fun i => cs.getD i ' ' = '.')).getLast? with
  | none => (s, "")
  | some d =>
    if (cs.take d).any (fun c => c ≠ '.') then ((cs.take d).asString, (cs.drop d).asString)
    else (s, "")

/-! ### Progress store (`download_progress`, lines 25, 59-65, 119-122) -/

/-- One stored progress dictionary.  Each constructor mirrors one of the
dict shapes written by `main.py`; `not_started` is the sentinel returned by
`get_progress` for absent sessions (line 122). -/
inductive ProgressEntry where
  | not_started
  | starting
  | downloading (progress : ℚ) (speed eta : String)
  | processing
  | finished (path filename : String)
  | error (message : String)
deriving DecidableEq

/-- The `status` field of the corresponding Python dict. -/
def ProgressEntry.statusStr : ProgressEntry → String
  | .not_started => "not_started"
  | .starting => "starting"
  | .downloading _ _ _ => "downloading"
  | .processing => "processing"
  | .finished _ _ => "finished"
  | .error _ => "error"

/-- The `progress` field of the corresponding Python dict (`none` for the
`error` dict, which carries no `progress` key). -/
def ProgressEntry.progressVal : ProgressEntry → Option ℚ
  | .not_started => some 0
  | .starting => some 0
  | .downloading p _ _ => some p
  | .processing => some 100
  | .finished _ _ => some 100
  | .error _ => none

/-- The in-memory `download_progress` mapping. -/
abbrev Store := String → Option ProgressEntry

/-- Dictionary assignment `download_progress[sid] = v`. -/
def storeSet (st : Store) (sid : String) (v : ProgressEntry) : Store :=
  fun s => if s = sid then some v else st s

/-- Handler `GET /progress/{session_id}` (lines 119-122):
`download_progress.get(session_id, {"status": "not_started", "progress": 0})`. -/
def get_progress (st : Store) (sid : String) : ProgressEntry :=
  (st sid).getD .not_started

/-- Helper `cleanup_session` (lines 59-65): delete the entry if present,
silently do nothing otherwise; the file on disk is never touched. -/
def cleanup_session (st : Store) (sid : String) : Store :=
  if (st sid).isSome then fun s => if s = sid then none else st s else st

/-- Replay a list of dictionary writes in order (last writer wins). -/
def applyWrites (st : Store) (ws : List (String × ProgressEntry)) : Store :=
  ws.foldl (fun a w => storeSet a w.1 w.2) st

/-! ### Progress hook (`progress_hook_factory`, lines 77-96) -/

/-- One event dictionary passed by the engine to the hook.  Optional fields
model the `d.get(...)` lookups with their defaults. -/
structure Event where
  status : String
  percent_str : Option String := none
  speed_str : Option String := none
  eta_str : Option String := none
deriving DecidableEq

/-- Line 80: `d.get('_percent_str', '0%').replace('%', '')`. -/
def eventPercentStr (d : Event) : String :=
  stripPercent (d.percent_str.getD "0%")

/-- The entry (if any) a single hook invocation writes.  `parse` models
Python `float(...)` restricted to its success/failure behaviour: `float(p)`
raises `ValueError` exactly when `parse p = none`, and the `try/except
ValueError: pass` of lines 81-89 turns that failure into no write at all. -/
def hookEntry (parse : String → Option ℚ) (d : Event) : Option ProgressEntry :=
  if d.status = "downloading" then
    match parse (eventPercentStr d) with
    | some q => some (.downloading q (d.speed_str.getD "N/A") (d.eta_str.getD "N/A"))
    | none => none
  else if d.status = "finished" then some .processing
  else none

/-- The hook produced by `progress_hook_factory session_id`, as a store
transformer. -/
def progress_hook (parse : String → Option ℚ) (sid : String) (d : Event) (st : Store) : Store :=
  match hookEntry parse d with
  | some e => storeSet st sid e
  | none => st

/-- The writes performed by feeding a whole event stream to the hook. -/
def hookWrites (parse : String → Option ℚ) (sid : String) (events : List Event) :
    List (String × ProgressEntry) :=
  (events.filterMap (hookEntry parse)).map (fun e => (sid, e))

/-! ### Path resolver (`get_unique_path`, lines 67-75)

The filesystem is modelled by the finite set `occ` of paths for which
`os.path.exists` answers true at resolution time. -/

/-- The probe `os.path.join(directory, f"{base}_copy{counter}{ext}")` of
line 73; Python `str(counter)` is decimal, i.e. `Nat.repr`. -/
def probeName (dir base ext : String) (n : Nat) : String :=
  pjoin dir (base ++ "_copy" ++ Nat.repr n ++ ext)

/-- The `while os.path.exists(path)` loop of lines 71-74, with explicit
fuel (the loop state is the pair `counter`, `path`). -/
def uniqueLoop (occ : Finset String) (dir base ext : String) :
    Nat → Nat → String → String
  | 0, _, path => path
  | fuel + 1, counter, path =>
    if path ∈ occ then
      uniqueLoop occ dir base ext fuel (counter + 1) (probeName dir base ext counter)
    else path

/-- `get_unique_path(directory, filename)` of lines 67-75.  `occ.card + 1`
units of fuel always suffice: the probes are pairwise distinct, so the loop
finds a free path after at most `occ.card` occupied ones. -/
def get_unique_path (occ : Finset String) (directory filename : String) : String :=
  let base := (splitext filename).1
  let ext := (splitext filename).2
  uniqueLoop occ directory base ext (occ.card + 1) 1 (pjoin directory filename)

/-! ### Decimal representation value (for injectivity of `Nat.repr`) -/

/-- Numeric value of a decimal digit character. -/
def digitVal (c : Char) : Nat := c.toNat - 48

/-- Value of a decimal digit string. -/
def digitsVal (l : List Char) : Nat := l.foldl (fun a c => 10 * a + digitVal c) 0

/-! ### Exceptions, engine collaborator, HTTP responses -/

/-- Exception classes distinguished by the handlers' `except` clauses.
`otherError` stands for any exception that is neither a `ValueError` nor a
`RuntimeError`; the payload is Python's `str(e)`. -/
inductive PyErr where
  | valueError (msg : String)
  | runtimeError (msg : String)
  | otherError (msg : String)
deriving DecidableEq

/-- Python `str(e)` for a caught exception. -/
def PyErr.msg : PyErr → String
  | .valueError m => m
  | .runtimeError m => m
  | .otherError m => m

/-- The external `youtube_downloader` collaborator.  `validate` is
`validate_youtube_url` (video id or exception), `getInfo` is
`get_video_info` reduced to the only field the handlers read
(`info['title']`), and `download` is `download_youtube_audio`: for the
given url, output directory and filename base it fires a list of progress
events at the hook and then returns the final path or raises. -/
structure Engine where
  validate : String → Except PyErr String
  getInfo : String → Except PyErr String
  download : String → String → String → List Event × Except PyErr String

/-- The JSON body returned by a successful `POST /save` (lines 181-186). -/
structure SavePayload where
  status : String
  message : String
  path : String
  filename : String
deriving DecidableEq

/-- HTTP responses produced by the handlers: the save success payload, a
streaming response (headers plus the chunk sizes the body iterator would
yield), or an `HTTPException` with status code and detail. -/
inductive Resp where
  | save (p : SavePayload)
  | stream (headers : List (String × String)) (chunks : List Nat)
  | httpError (code : Nat) (detail : String)
deriving DecidableEq

/-- The `except` handlers' conditional error write
`if session_id in download_progress: download_progress[session_id] = ...`
evaluated against a store in which the session was never created: the guard
consults the caller-supplied identifier (or Python `None`) against the
store as it was at request start. -/
def condErrWrite (store0 : Store) (sidOpt : Option String) (m : String) :
    List (String × ProgressEntry) :=
  match sidOpt with
  | some s => if (store0 s).isSome then [(s, .error m)] else []
  | none => []

/-- Filename chosen by `save_audio` (lines 146-154): hash/timestamp naming
or the sanitized title, always with `.mp3` appended. -/
def saveFilenameToUse (videoId title : String) (use_hash : Bool) (timestamp uid6 : String) :
    String :=
  if use_hash then videoId ++ "_" ++ timestamp ++ "_" ++ uid6 ++ ".mp3"
  else clean_title title ++ ".mp3"

/-- `final_path` of `save_audio` line 157: the resolver applied to the
chosen filename under the download directory. -/
def saveResolvedPath (occ : Finset String) (dir videoId title : String) (use_hash : Bool)
    (timestamp uid6 : String) : String :=
  get_unique_path occ dir (saveFilenameToUse videoId title use_hash timestamp uid6)

/-- `final_filename` of `save_audio` line 158. -/
def saveFinalFilename (occ : Finset String) (dir videoId title : String) (use_hash : Bool)
    (timestamp uid6 : String) : String :=
  basename (saveResolvedPath occ dir videoId title use_hash timestamp uid6)

/-- `output_filename_base` of `save_audio` line 162: the final filename with
its extension stripped before delegating to the engine. -/
def saveOutputBase (occ : Finset String) (dir videoId title : String) (use_hash : Bool)
    (timestamp uid6 : String) : String :=
  (splitext (saveFinalFilename occ dir videoId title use_hash timestamp uid6)).1

/-- Handler `POST /save` (lines 124-196).  Returns the ordered list of
`download_progress` writes it performs and the HTTP response.  Parameters:
`occ` is the set of existing paths consulted by `get_unique_path`, `dir` is
`DOWNLOAD_DIR`, `freshSid` is the `uuid4().hex[:8]` drawn when no session id
is supplied, `timestamp`/`uid6` feed the hash naming.  NOTE the source lists
`except Exception` (line 188) before `except ValueError` (line 193), so the
`ValueError` clause is unreachable and every failure is answered with
status 500. -/
def save_audio (eng : Engine) (parse : String → Option ℚ) (occ : Finset String)
    (dir url : String) (use_hash : Bool) (sidOpt : Option String)
    (freshSid timestamp uid6 : String) (store0 : Store) :
    List (String × ProgressEntry) × Resp :=
  match eng.validate url with
  | .error ex =>
    -- Validation precedes session creation (line 136 before line 142): the
    -- handler's error write is guarded by membership in the untouched store.
    (condErrWrite store0 sidOpt ex.msg, .httpError 500 ex.msg)
  | .ok videoId =>
    let sid := sidOpt.getD freshSid
    match eng.getInfo url with
    | .error ex => ([(sid, .starting), (sid, .error ex.msg)], .httpError 500 ex.msg)
    | .ok title =>
      let finalPath := saveResolvedPath occ dir videoId title use_hash timestamp uid6
      let finalFilename := saveFinalFilename occ dir videoId title use_hash timestamp uid6
      let dl := eng.download url dir (saveOutputBase occ dir videoId title use_hash timestamp uid6)
      let hw := hookWrites parse sid dl.1
      match dl.2 with
      | .error ex =>
        ((sid, .starting) :: hw ++ [(sid, .error ex.msg)], .httpError 500 ex.msg)
      | .ok _outputPath =>
        ((sid, .starting) :: hw ++ [(sid, .finished finalPath finalFilename)],
         .save { status := "success", message := "Saved to " ++ finalPath,
                 path := finalPath, filename := finalFilename })

/-- Status code and detail chosen by `stream_audio`'s `except` cascade
(lines 269-280): `ValueError` gives 400, `RuntimeError` gives 500, anything
else gives 500 with the detail prefixed `Unexpected error: `. -/
def streamCatch (e : PyErr) : Nat × String :=
  match e with
  | .valueError m => (400, m)
  | .runtimeError m => (500, m)
  | .otherError m => (500, "Unexpected error: " ++ m)

/-- Python's message for the undefined name at line 256: the handler calls
`background_tasks.add_task(cleanup_file, ...)` but no `cleanup_file` is
defined or imported anywhere in the module, so reaching that line raises
`NameError("name 'cleanup_file' is not defined")`. -/
def nameErrorMsg : String := "name 'cleanup_file' is not defined"

/-- Filename chosen by `stream_audio` (lines 221-226): sanitized caller
name (no `.strip()` here) or `yt_{video_id}`, suffixed with
`uuid4().hex[:8]`. -/
def streamFilenameToUse (videoId : String) (filenameOpt : Option String) (uid8 : String) :
    String :=
  match filenameOpt with
  | some f => (f.data.filter pyKeep).asString ++ "_" ++ uid8
  | none => "yt_" ++ videoId ++ "_" ++ uid8

/-- Handler `GET /stream` (lines 198-280).  `fsAfter` is the set of paths
existing when line 236 checks `os.path.exists(output_path)`.  When the
engine succeeds and the artifact exists, line 256 evaluates the undefined
name `cleanup_file`; the resulting `NameError` is caught by the generic
`except Exception` clause, which records an `error` entry and answers 500,
so the streaming response built at lines 259-267 is never returned.  When
the artifact is missing, the `HTTPException` raised at line 238 is itself
an `Exception`, so the same generic clause catches it, overwrites the error
entry with Starlette's `str(e)` (`"{status_code}: {detail}"`) and wraps the
detail once more. -/
def stream_audio (eng : Engine) (parse : String → Option ℚ) (fsAfter : Finset String)
    (dir url : String) (filenameOpt : Option String) (sidOpt : Option String)
    (freshSid uid8 : String) (store0 : Store) :
    List (String × ProgressEntry) × Resp :=
  match eng.validate url with
  | .error ex =>
    (condErrWrite store0 sidOpt ex.msg, .httpError (streamCatch ex).1 (streamCatch ex).2)
  | .ok videoId =>
    let sid := sidOpt.getD freshSid
    let dl := eng.download url dir (streamFilenameToUse videoId filenameOpt uid8)
    let hw := hookWrites parse sid dl.1
    match dl.2 with
    | .error ex =>
      ((sid, .starting) :: hw ++ [(sid, .error ex.msg)],
       .httpError (streamCatch ex).1 (streamCatch ex).2)
    | .ok outputPath =>
      if outputPath ∈ fsAfter then
        ((sid, .starting) :: hw ++ [(sid, .error nameErrorMsg)],
         .httpError 500 ("Unexpected error: " ++ nameErrorMsg))
      else
        ((sid, .starting) :: hw ++
           [(sid, .error "File not found after processing"),
            (sid, .error "500: Download failed: File not found after processing")],
         .httpError 500 "Unexpected error: 500: Download failed: File not found after processing")

/-- Sizes of the chunks the body iterator of lines 245-253 yields: repeated
`f.read(1024 * 1024)` returns full 1 MiB blocks and then the remainder. -/
def chunkSizes (n : Nat) : List Nat :=
  List.replicate (n / 1048576) 1048576 ++ (if n % 1048576 = 0 then [] else [n % 1048576])

/-- The `StreamingResponse` built at lines 259-267 (unreachable in the code
as written, see `stream_audio`): 1 MiB chunks and the three headers. -/
def intendedStreamResponse (filename : String) (size : Nat) : Resp :=
  .stream
    [("Content-Disposition", "attachment; filename=\"" ++ filename ++ "\""),
     ("Content-Length", Nat.repr size),
     ("Cache-Control", "no-cache")]
    (chunkSizes size)

/-- Sanitizer prescribed by the specification's words for the title-based
naming policy: retain only alphanumeric characters, `.`, `_`, `-` and
space, trim surrounding whitespace, append the audio extension. -/
def specTitleFilename (title : String) : String :=
  (((title.data.filter (fun c => c.isAlphanum || c = '.' || c = '_' || c = '-' || c = ' ')
    ).dropWhile (fun c => c = ' ')).reverse.dropWhile (fun c => c = ' ')).reverse.asString
    ++ ".mp3"

/-! ### Trace observations -/

/-- The percent carried by a `downloading` write (other entries carry no
engine-reported percent). -/
def entryPercent : ProgressEntry → Option ℚ
  | .downloading q _ _ => some q
  | _ => none

/-- Status field of each write of a trace, in order. -/
def writeStatuses (w : List (String × ProgressEntry)) : List String :=
  w.map (fun p => p.2.statusStr)

/-- Percents of the `downloading` writes of a trace, in order. -/
def writePercents (w : List (String × ProgressEntry)) : List ℚ :=
  w.filterMap (fun p => entryPercent p.2)

/-! ### Concrete fixtures for witnesses and counterexamples -/

/-- One concrete realisation of the `float(...)` parse: non-empty decimal
digit strings, read as a rational.  Any function of this type is admissible
in the parametric theorems; this one makes the fixtures computable. -/
def parseQ (s : String) : Option ℚ :=
  if s.data ≠ [] ∧ s.data.all Char.isDigit then some ((digitsVal s.data : ℚ)) else none

/-- The store of a freshly started process: no session exists. -/
def emptyStore : Store := fun _ => none

/-- An engine event reporting fifty percent downloaded. -/
def ev50 : Event :=
  { status := "downloading", percent_str := some "50%",
    speed_str := some "1.00MiB/s", eta_str := some "00:10" }

/-- The engine's terminal download-finished event. -/
def evFin : Event := { status := "finished" }

/-- An engine run in which everything succeeds: the URL validates to
`abc123`, the metadata title is `Song: Live! 2024`, and the download fires
one progress event and one finished event before producing
`/dl/out.mp3`. -/
def engOK : Engine :=
  { validate := fun _ => .ok "abc123",
    getInfo := fun _ => .ok "Song: Live! 2024",
    download := fun _ _ _ => ([ev50, evFin], .ok "/dl/out.mp3") }

/-- An engine whose URL validator raises
`ValueError("Invalid YouTube URL")`. -/
def engBadUrl : Engine :=
  { validate := fun _ => .error (.valueError "Invalid YouTube URL"),
    getInfo := fun _ => .ok "",
    download := fun _ _ _ => ([], .ok "") }

/-- An engine whose metadata retrieval raises
`RuntimeError("Video unavailable")`. -/
def engInfoFail : Engine :=
  { validate := fun _ => .ok "abc123",
    getInfo := fun _ => .error (.runtimeError "Video unavailable"),
    download := fun _ _ _ => ([], .ok "") }

/-- The filesystem in which the streamed artifact `/dl/out.mp3` exists. -/
def fsOK : Finset String := {"/dl/out.mp3"}

/-- Directory contents for the resolver witness: the desired path and its
first copy probe are both taken. -/
def occW : Finset String := {"d/a.mp3", "d/a_copy1.mp3"}

/-! ### Helper lemmas: strings and decimal representations -/

theorem string_append_cancel_left {a b c : String} (h : a ++ b = a ++ c) : b = c := by
  apply String.toList_inj.1
  have hd := congrArg String.data h
  simp only [String.data_append] at hd
  exact List.append_cancel_left hd

theorem string_append_cancel_right {a b c : String} (h : a ++ c = b ++ c) : a = b := by
  apply String.toList_inj.1
  have hd := congrArg String.data h
  simp only [String.data_append] at hd
  exact List.append_cancel_right hd

theorem asString_append (l1 l2 : List Char) :
    (l1 ++ l2).asString = l1.asString ++ l2.asString := by
  apply String.toList_inj.1
  simp [List.toList_asString]
  rfl

theorem digitsVal_foldl_from (l : List Char) : ∀ a : Nat,
    l.foldl (fun a c => 10 * a + digitVal c) a = a * 10 ^ l.length + digitsVal l := by
  induction l with
  | nil => intro a; simp [digitsVal]
  | cons c t ih =>
    intro a
    simp only [List.foldl_cons, List.length_cons, digitsVal, Nat.mul_zero, Nat.zero_add]
    rw [ih (10 * a + digitVal c), ih (digitVal c)]
    ring

theorem digitVal_digitChar (m : Nat) (h : m < 10) : digitVal (Nat.digitChar m) = m := by
  interval_cases m <;> rfl

theorem digitsVal_toDigitsCore :
    ∀ (fuel n : Nat) (acc : List Char), n < 10 ^ fuel →
      digitsVal (Nat.toDigitsCore 10 fuel n acc) = n * 10 ^ acc.length + digitsVal acc := by
  intro fuel
  induction fuel with
  | zero =>
    intro n acc hn
    interval_cases n
    simp [Nat.toDigitsCore]
  | succ f ih =>
    intro n acc hn
    by_cases hq : n / 10 = 0
    · have hn10 : n < 10 := by omega
      have : Nat.toDigitsCore 10 (f + 1) n acc = Nat.digitChar (n % 10) :: acc := by
        simp [Nat.toDigitsCore, hq]
      rw [this]
      have : digitsVal (Nat.digitChar (n % 10) :: acc) =
          digitVal (Nat.digitChar (n % 10)) * 10 ^ acc.length + digitsVal acc := by
        simp only [digitsVal, List.foldl_cons]
        rw [digitsVal_foldl_from]
        simp [digitsVal]
      rw [this, digitVal_digitChar _ (Nat.mod_lt _ (by omega))]
      have : n % 10 = n := Nat.mod_eq_of_lt hn10
      rw [this]
    · have : Nat.toDigitsCore 10 (f + 1) n acc =
          Nat.toDigitsCore 10 f (n / 10) (Nat.digitChar (n % 10) :: acc) := by
        simp [Nat.toDigitsCore, hq]
      rw [this]
      have hdiv : n / 10 < 10 ^ f := by
        apply Nat.div_lt_of_lt_mul
        rw [pow_succ] at hn
        omega
      rw [ih (n / 10) (Nat.digitChar (n % 10) :: acc) hdiv]
      have : digitsVal (Nat.digitChar (n % 10) :: acc) =
          digitVal (Nat.digitChar (n % 10)) * 10 ^ acc.length + digitsVal acc := by
        simp only [digitsVal, List.foldl_cons]
        rw [digitsVal_foldl_from]
        simp [digitsVal]
      rw [this, digitVal_digitChar _ (Nat.mod_lt _ (by omega))]
      have hmod := Nat.div_add_mod n 10
      simp only [List.length_cons, pow_succ]
      ring_nf
      nlinarith [pow_pos (by omega : (0:ℕ) < 10) acc.length]

theorem digitsVal_repr (n : Nat) : digitsVal (Nat.repr n).data = n := by
  have hb : n < 10 ^ (n + 1) := by
    calc n < 10 ^ n := Nat.lt_pow_self (by omega) n
    _ ≤ 10 ^ (n + 1) := Nat.pow_le_pow_right (by omega) (Nat.le_succ n)
  have : (Nat.repr n).data = Nat.toDigitsCore 10 (n + 1) n [] := rfl
  rw [this, digitsVal_toDigitsCore (n + 1) n [] hb]
  simp [digitsVal]

theorem natRepr_injective : Function.Injective Nat.repr := by
  intro m n h
  have := congrArg (fun s => digitsVal s.data) h
  simpa [digitsVal_repr] using this

theorem probeName_injective (dir base ext : String) :
    Function.Injective (probeName dir base ext) := by
  intro m n h
  apply natRepr_injective
  apply String.toList_inj.1
  have hd := congrArg String.data h
  simp only [probeName, pjoin, String.data_append, List.append_assoc] at hd
  exact List.append_cancel_right
    (List.append_cancel_left (List.append_cancel_left
      (List.append_cancel_left (List.append_cancel_left hd))))

theorem splitext_append (s : String) : (splitext s).1 ++ (splitext s).2 = s := by
  simp only [splitext]
  split
  · simp
  · split
    · rw [← asString_append, List.take_append_drop]
      exact String.asString_toList s
    · simp

theorem pjoin_ne_probeName (dir base ext firstName : String)
    (hsplit : base ++ ext = firstName) (n : Nat) :
    pjoin dir firstName ≠ probeName dir base ext n := by
  intro h
  rw [← hsplit] at h
  have hd := congrArg String.data h
  simp only [probeName, pjoin, String.data_append, List.append_assoc] at hd
  have h1 := List.append_cancel_left (List.append_cancel_left (List.append_cancel_left hd))
  have hlen := congrArg List.length h1
  simp only [List.length_append, List.length_cons, List.length_nil] at hlen
  omega

theorem uniqueLoop_of_not_mem (occ : Finset String) (dir base ext : String)
    (path : String) (h : path ∉ occ) (fuel counter : Nat) :
    uniqueLoop occ dir base ext fuel counter path = path := by
  cases fuel with
  | zero => rfl
  | succ f => simp [uniqueLoop, h]

theorem uniqueLoop_finds (occ : Finset String) (dir base ext : String) :
    ∀ (fuel counter j : Nat) (path : String), path ∈ occ → j < fuel →
      probeName dir base ext (counter + j) ∉ occ →
      (∀ i < j, probeName dir base ext (counter + i) ∈ occ) →
      uniqueLoop occ dir base ext fuel counter path = probeName dir base ext (counter + j) := by
  intro fuel
  induction fuel with
  | zero => intro counter j path _ hj; omega
  | succ f ih =>
    intro counter j path hpath hj hfree hocc
    rw [show uniqueLoop occ dir base ext (f + 1) counter path =
        uniqueLoop occ dir base ext f (counter + 1) (probeName dir base ext counter) by
      simp [uniqueLoop, hpath]]
    cases j with
    | zero =>
      simp only [Nat.add_zero] at hfree ⊢
      rw [uniqueLoop_of_not_mem occ dir base ext _ hfree]
    | succ j' =>
      have h0 : probeName dir base ext counter ∈ occ := by
        have := hocc 0 (by omega)
        simpa using this
      have := ih (counter + 1) j' (probeName dir base ext counter) h0 (by omega)
        (by rw [show counter + 1 + j' = counter + (j' + 1) by omega]; exact hfree)
        (fun i hi => by
          rw [show counter + 1 + i = counter + (i + 1) by omega]
          exact hocc (i + 1) (by omega))
      rw [this, show counter + 1 + j' = counter + (j' + 1) by omega]

theorem exists_free_probe (occ : Finset String) (dir base ext : String) :
    ∃ j : Nat, probeName dir base ext (1 + j) ∉ occ := by
  by_contra hall
  push_neg at hall
  have hsub : (Finset.range (occ.card + 1)).image
      (fun j => probeName dir base ext (1 + j)) ⊆ occ := by
    intro x hx
    simp only [Finset.mem_image, Finset.mem_range] at hx
    obtain ⟨j, _, rfl⟩ := hx
    exact hall j
  have hcard := Finset.card_le_card hsub
  rw [Finset.card_image_of_injective _
    (fun a b hab => by have := probeName_injective dir base ext hab; omega),
    Finset.card_range] at hcard
  omega

theorem least_free_probe_le_card (occ : Finset String) (dir base ext : String)
    (j0 : Nat) (hocc : ∀ i < j0, probeName dir base ext (1 + i) ∈ occ) :
    j0 ≤ occ.card := by
  have hsub : (Finset.range j0).image (fun i => probeName dir base ext (1 + i)) ⊆ occ := by
    intro x hx
    simp only [Finset.mem_image, Finset.mem_range] at hx
    obtain ⟨i, hi, rfl⟩ := hx
    exact hocc i hi
  have hcard := Finset.card_le_card hsub
  rwa [Finset.card_image_of_injective _
    (fun a b hab => by have := probeName_injective dir base ext hab; omega),
    Finset.card_range] at hcard

/-! ### Helper lemmas: store traces and the hook -/

theorem applyWrites_nil (st : Store) : applyWrites st [] = st := rfl

theorem applyWrites_cons (st : Store) (w : String × ProgressEntry) (ws : List (String × ProgressEntry)) :
    applyWrites st (w :: ws) = applyWrites (storeSet st w.1 w.2) ws := rfl

theorem applyWrites_append (st : Store) (ws1 ws2 : List (String × ProgressEntry)) :
    applyWrites st (ws1 ++ ws2) = applyWrites (applyWrites st ws1) ws2 := by
  simp [applyWrites, List.foldl_append]

theorem get_applyWrites_concat (st : Store) (ws : List (String × ProgressEntry))
    (s : String) (e : ProgressEntry) :
    get_progress (applyWrites st (ws ++ [(s, e)])) s = e := by
  rw [applyWrites_append]
  simp [applyWrites, get_progress, storeSet]

theorem get_applyWrites_concat2 (st : Store) (ws : List (String × ProgressEntry))
    (s : String) (d e : ProgressEntry) :
    get_progress (applyWrites st (ws ++ [(s, d), (s, e)])) s = e := by
  rw [show (ws ++ [(s, d), (s, e)]) = (ws ++ [(s, d)]) ++ [(s, e)] by simp]
  exact get_applyWrites_concat st (ws ++ [(s, d)]) s e

/-- Feeding the event stream through the hook one event at a time performs
exactly the writes collected by `hookWrites`. -/
theorem foldl_progress_hook (parse : String → Option ℚ) (sid : String) :
    ∀ (events : List Event) (st : Store),
      events.foldl (fun a d => progress_hook parse sid d a) st =
        applyWrites st (hookWrites parse sid events) := by
  intro events
  induction events with
  | nil => intro st; rfl
  | cons d es ih =>
    intro st
    simp only [List.foldl_cons, hookWrites, List.filterMap_cons, progress_hook]
    cases h : hookEntry parse d with
    | none => simpa [hookWrites] using ih st
    | some e => simpa [hookWrites, applyWrites_cons] using ih (storeSet st sid e)

/-- Trace of a well-formed downloading prefix: each event writes one
`downloading` entry carrying its parsed percent. -/
theorem hookWrites_downloading (parse : String → Option ℚ) (sid : String) :
    ∀ ds : List Event,
      (∀ d ∈ ds, d.status = "downloading" ∧ (parse (eventPercentStr d)).isSome) →
      writeStatuses (hookWrites parse sid ds) = List.replicate ds.length "downloading"
      ∧ writePercents (hookWrites parse sid ds) =
          ds.filterMap (fun d => parse (eventPercentStr d))
      ∧ ∀ p ∈ hookWrites parse sid ds, p.1 = sid := by
  intro ds
  induction ds with
  | nil => intro _; refine ⟨rfl, rfl, by simp [hookWrites]⟩
  | cons d es ih =>
    intro h
    obtain ⟨hd, hsome⟩ := h d (by simp)
    obtain ⟨q, hq⟩ := Option.isSome_iff_exists.1 hsome
    have ihh := ih (fun x hx => h x (by simp [hx]))
    have hent : hookEntry parse d =
        some (.downloading q (d.speed_str.getD "N/A") (d.eta_str.getD "N/A")) := by
      simp [hookEntry, hd, hq]
    refine ⟨?_, ?_, ?_⟩
    · simp only [hookWrites, List.filterMap_cons, hent, List.map_cons, writeStatuses,
        List.length_cons, List.replicate_succ]
      exact congrArg _ ihh.1
    · simp only [hookWrites, List.filterMap_cons, hent, hq, writePercents, List.map_cons,
        entryPercent, ProgressEntry.statusStr]
      exact congrArg _ ihh.2.1
    · intro p hp
      simp only [hookWrites, List.filterMap_cons, hent, List.map_cons, List.mem_cons] at hp
      rcases hp with h1 | h2
      · rw [h1]
      · exact ihh.2.2 p (by simpa [hookWrites] using h2)

/-- The single finished event writes the single `processing` entry. -/
theorem hookWrites_finished (parse : String → Option ℚ) (sid : String) (fin : Event)
    (hfin : fin.status = "finished") :
    hookWrites parse sid [fin] = [(sid, .processing)] := by
  have : fin.status ≠ "downloading" := by rw [hfin]; decide
  simp [hookWrites, hookEntry, this, hfin]

theorem hookWrites_append (parse : String → Option ℚ) (sid : String)
    (es1 es2 : List Event) :
    hookWrites parse sid (es1 ++ es2) =
      hookWrites parse sid es1 ++ hookWrites parse sid es2 := by
  simp [hookWrites, List.filterMap_append]

/-! ### Helper lemmas: the title sanitizer -/

theorem dropWhile_congr_mem {p q : Char → Bool} :
    ∀ {l : List Char}, (∀ c ∈ l, p c = q c) → l.dropWhile p = l.dropWhile q := by
  intro l
  induction l with
  | nil => intro _; rfl
  | cons c t ih =>
    intro h
    rw [List.dropWhile_cons, List.dropWhile_cons, h c (by simp)]
    cases hq : q c with
    | true => simp only [if_true]; exact ih (fun x hx => h x (by simp [hx]))
    | false => simp

theorem pyKeep_space_eq (c : Char) (hk : pyKeep c = true) :
    isPySpace c = decide (c = ' ') := by
  by_cases h1 : c = ' '
  · subst h1; rfl
  by_cases h2 : c = '\t'
  · subst h2; exact absurd hk (by decide)
  by_cases h3 : c = '\n'
  · subst h3; exact absurd hk (by decide)
  by_cases h4 : c = '\r'
  · subst h4; exact absurd hk (by decide)
  by_cases h5 : c = '\x0b'
  · subst h5; exact absurd hk (by decide)
  by_cases h6 : c = '\x0c'
  · subst h6; exact absurd hk (by decide)
  simp [isPySpace, h1, h2, h3, h4, h5, h6]

theorem pyStrip_of_kept (l : List Char) (hl : ∀ c ∈ l, pyKeep c = true) :
    pyStrip l = ((l.dropWhile (fun c => c = ' ')).reverse.dropWhile
      (fun c => c = ' ')).reverse := by
  unfold pyStrip
  have h1 : l.dropWhile isPySpace = l.dropWhile (fun c => c = ' ') :=
    dropWhile_congr_mem (fun c hc => pyKeep_space_eq c (hl c hc))
  rw [h1]
  congr 1
  apply dropWhile_congr_mem
  intro c hc
  apply pyKeep_space_eq
  apply hl
  have := (List.dropWhile_sublist (l := l) (fun c => c = ' ')).mem (List.mem_reverse.1 hc)
  exact this

/-! ### Claim theorems -/

/-- C5: for every directory and filename (the directory contents being the
set `occ` of existing paths), if no file exists at `D/F` then
`get_unique_path` returns `D/F` unchanged; if `D/F` exists it returns
`D/{stem}_copy{N}{ext}` for the smallest integer `N ≥ 1` such that that
path does not exist, where `stem` and `ext` split `F`; resolution is a
pure (hence deterministic) function of the contents at check time. -/
theorem claim5_path_resolver (occ : Finset String) (dir filename : String) :
    (pjoin dir filename ∉ occ → get_unique_path occ dir filename = pjoin dir filename)
    ∧ (pjoin dir filename ∈ occ →
      ∃ N, 1 ≤ N ∧
        probeName dir (splitext filename).1 (splitext filename).2 N ∉ occ ∧
        (∀ m, 1 ≤ m → m < N →
          probeName dir (splitext filename).1 (splitext filename).2 m ∈ occ) ∧
        get_unique_path occ dir filename =
          probeName dir (splitext filename).1 (splitext filename).2 N) := by
  constructor
  · intro h
    exact uniqueLoop_of_not_mem occ dir _ _ _ h _ _
  · intro h
    have hex := exists_free_probe occ dir (splitext filename).1 (splitext filename).2
    refine ⟨1 + Nat.find hex, by omega, Nat.find_spec hex, ?_, ?_⟩
    · intro m hm1 hmN
      obtain ⟨i, rfl⟩ : ∃ i, m = 1 + i := ⟨m - 1, by omega⟩
      have hi : i < Nat.find hex := by omega
      have := Nat.find_min hex hi
      simpa using this
    · have hocc : ∀ i < Nat.find hex,
          probeName dir (splitext filename).1 (splitext filename).2 (1 + i) ∈ occ := by
        intro i hi
        have := Nat.find_min hex hi
        simpa using this
      have hle := least_free_probe_le_card occ dir (splitext filename).1
        (splitext filename).2 (Nat.find hex) hocc
      simp only [get_unique_path]
      exact uniqueLoop_finds occ dir (splitext filename).1 (splitext filename).2
        (occ.card + 1) 1 (Nat.find hex) _ h (by omega) (Nat.find_spec hex)
        (fun i hi => hocc i hi)

/-- Witness for C5 at concrete directory contents: with `d/a.mp3` and
`d/a_copy1.mp3` both existing, the resolver returns `d/a_copy2.mp3`. -/
theorem claim5_witness :
    get_unique_path occW "d" "a.mp3" = "d/a_copy2.mp3" ∧
    (∃ N, 1 ≤ N ∧
      probeName "d" (splitext "a.mp3").1 (splitext "a.mp3").2 N ∉ occW ∧
      (∀ m, 1 ≤ m → m < N →
        probeName "d" (splitext "a.mp3").1 (splitext "a.mp3").2 m ∈ occW) ∧
      get_unique_path occW "d" "a.mp3" =
        probeName "d" (splitext "a.mp3").1 (splitext "a.mp3").2 N) :=
  ⟨by decide, (claim5_path_resolver occW "d" "a.mp3").2 (by decide)⟩

/-- C6: polling an absent identifier returns the `not_started` sentinel
with progress 0 and never fails; polling after a set returns exactly the
last-set value; removal is a silent no-op when the identifier is absent;
and polling after a removal returns the sentinel again. -/
theorem claim6_progress_store (store : Store) (sid : String) (v : ProgressEntry) :
    (store sid = none →
      get_progress store sid = .not_started ∧
      (get_progress store sid).progressVal = some 0)
    ∧ get_progress (storeSet store sid v) sid = v
    ∧ (store sid = none → cleanup_session store sid = store)
    ∧ get_progress (cleanup_session store sid) sid = .not_started := by
  refine ⟨?_, ?_, ?_, ?_⟩
  · intro h
    constructor <;> simp [get_progress, h, ProgressEntry.progressVal]
  · simp [get_progress, storeSet]
  · intro h
    simp [cleanup_session, h]
  · cases h : store sid with
    | none => simp [cleanup_session, h, get_progress]
    | some e => simp [cleanup_session, h, get_progress]

/-- Witness for C6 on a concrete store and session identifier. -/
theorem claim6_witness :
    (get_progress emptyStore "s" = .not_started ∧
      (get_progress emptyStore "s").progressVal = some 0)
    ∧ get_progress (storeSet emptyStore "s" .starting) "s" = .starting
    ∧ cleanup_session emptyStore "s" = emptyStore
    ∧ get_progress (cleanup_session emptyStore "s") "s" = .not_started := by
  have h := claim6_progress_store emptyStore "s" .starting
  exact ⟨h.1 rfl, h.2.1, h.2.2.1 rfl, h.2.2.2⟩

/-- C7: the title-based naming policy yields exactly the title filtered to
alphanumerics, `.`, `_`, `-` and space, trimmed of surrounding whitespace,
with the audio extension appended; in particular the title
`Song: Live! 2024` yields the filename `Song Live 2024.mp3`. -/
theorem claim7_title_policy :
    (∀ videoId title timestamp uid6 : String,
      saveFilenameToUse videoId title false timestamp uid6 = specTitleFilename title)
    ∧ saveFilenameToUse "v" "Song: Live! 2024" false "ts" "u6" = "Song Live 2024.mp3" := by
  constructor
  · intro videoId title timestamp uid6
    show clean_title title ++ ".mp3" = specTitleFilename title
    unfold clean_title specTitleFilename
    have hkeep : ∀ c ∈ title.data.filter pyKeep, pyKeep c = true := by
      intro c hc
      exact (List.mem_filter.1 hc).2
    rw [pyStrip_of_kept _ hkeep]
    rfl
  · decide

/-- C10: the hook is total over events carrying a status.  A `downloading`
event whose (percent-sign-stripped) percent string fails to parse as a
float leaves the store untouched (no default value is written); a
`downloading` event with a parsable percent writes exactly the
`downloading` entry carrying that percent, speed and ETA; an event with
any other status than `downloading` or `finished` writes nothing. -/
theorem claim10_hook_total (parse : String → Option ℚ) (sid : String)
    (st : Store) (d : Event) :
    (d.status = "downloading" → parse (eventPercentStr d) = none →
      progress_hook parse sid d st = st)
    ∧ (∀ q : ℚ, d.status = "downloading" → parse (eventPercentStr d) = some q →
      progress_hook parse sid d st =
        storeSet st sid (.downloading q (d.speed_str.getD "N/A") (d.eta_str.getD "N/A")))
    ∧ (d.status ≠ "downloading" → d.status ≠ "finished" →
      progress_hook parse sid d st = st) := by
  refine ⟨?_, ?_, ?_⟩
  · intro hd hp
    simp [progress_hook, hookEntry, hd, hp]
  · intro q hd hp
    simp [progress_hook, hookEntry, hd, hp]
  · intro hd hf
    simp [progress_hook, hookEntry, hd, hf]

/-- Witness for C10 at concrete events: percent string `4a2%` does not
parse and is discarded; `50%` parses and is written; a `postprocessing`
event writes nothing. -/
theorem claim10_witness :
    progress_hook parseQ "s" { status := "downloading", percent_str := some "4a2%" }
      emptyStore = emptyStore
    ∧ progress_hook parseQ "s" ev50 emptyStore =
        storeSet emptyStore "s" (.downloading 50 "1.00MiB/s" "00:10")
    ∧ progress_hook parseQ "s" { status := "postprocessing" } emptyStore = emptyStore := by
  refine ⟨?_, ?_, ?_⟩
  · exact (claim10_hook_total parseQ "s" emptyStore
      { status := "downloading", percent_str := some "4a2%" }).1 rfl (by decide)
  · exact (claim10_hook_total parseQ "s" emptyStore ev50).2.1 50 rfl (by decide)
  · exact (claim10_hook_total parseQ "s" emptyStore { status := "postprocessing" }).2.2
      (by decide) (by decide)

/-- C1 counterexample: a `POST /save` with an invalid URL and a fresh
session identifier records nothing in the Progress Store (the session entry
is only created after validation succeeds, and the handler's error write is
guarded by membership), so the subsequent poll observes `not_started`, not
`error`. -/
theorem claim1_counterexample :
    (save_audio engBadUrl parseQ ∅ "/d" "u" false (some "s1") "f8" "ts" "u6" emptyStore).2 =
      .httpError 500 "Invalid YouTube URL"
    ∧ (save_audio engBadUrl parseQ ∅ "/d" "u" false (some "s1") "f8" "ts" "u6" emptyStore).1 = []
    ∧ get_progress (applyWrites emptyStore
        (save_audio engBadUrl parseQ ∅ "/d" "u" false (some "s1") "f8" "ts" "u6" emptyStore).1)
        "s1" = .not_started
    ∧ (get_progress (applyWrites emptyStore
        (save_audio engBadUrl parseQ ∅ "/d" "u" false (some "s1") "f8" "ts" "u6" emptyStore).1)
        "s1").statusStr ≠ "error" := by
  refine ⟨by decide, by decide, by decide, by decide⟩

/-- C1 amended: every failure raised after URL validation succeeded is
recorded as a terminal `error` entry for the session before the HTTP error
response is produced (in save mode the entry carries exactly the response
detail), but a URL-validation failure is recorded only when the supplied
identifier already has a store entry: with a fresh or absent identifier the
store is left untouched and a poll of that identifier observes the
`not_started` sentinel rather than `error`. -/
theorem claim1_amended (eng : Engine) (parse : String → Option ℚ) (occ fsAfter : Finset String)
    (dir url : String) (use_hash : Bool) (filenameOpt sidOpt : Option String)
    (freshSid timestamp uid6 uid8 : String) (store0 : Store) :
    (∀ vid, eng.validate url = .ok vid →
      ∀ c m, (save_audio eng parse occ dir url use_hash sidOpt freshSid timestamp uid6 store0).2 =
          .httpError c m →
        c = 500 ∧
        get_progress (applyWrites store0
            (save_audio eng parse occ dir url use_hash sidOpt freshSid timestamp uid6 store0).1)
          (sidOpt.getD freshSid) = .error m)
    ∧ (∀ vid, eng.validate url = .ok vid →
      ∀ c m, (stream_audio eng parse fsAfter dir url filenameOpt sidOpt freshSid uid8 store0).2 =
          .httpError c m →
        ∃ em, get_progress (applyWrites store0
            (stream_audio eng parse fsAfter dir url filenameOpt sidOpt freshSid uid8 store0).1)
          (sidOpt.getD freshSid) = .error em)
    ∧ (∀ ex, eng.validate url = .error ex →
      (save_audio eng parse occ dir url use_hash sidOpt freshSid timestamp uid6 store0).1 =
        condErrWrite store0 sidOpt ex.msg
      ∧ (stream_audio eng parse fsAfter dir url filenameOpt sidOpt freshSid uid8 store0).1 =
        condErrWrite store0 sidOpt ex.msg
      ∧ (∀ s, sidOpt = some s → store0 s = none →
          get_progress (applyWrites store0
              (save_audio eng parse occ dir url use_hash sidOpt freshSid timestamp uid6 store0).1)
            s = .not_started
          ∧ get_progress (applyWrites store0
              (stream_audio eng parse fsAfter dir url filenameOpt sidOpt freshSid uid8 store0).1)
            s = .not_started)) := by
  refine ⟨?_, ?_, ?_⟩
  · intro vid hv c m hr
    cases hi : eng.getInfo url with
    | error ex =>
      simp only [save_audio, hv, hi] at hr ⊢
      simp only [Resp.httpError.injEq] at hr
      refine ⟨hr.1.symm, ?_⟩
      simp [applyWrites, get_progress, storeSet, ← hr.2]
    | ok title =>
      rcases hdle : eng.download url dir (saveOutputBase occ dir vid title use_hash timestamp uid6)
        with ⟨evs, res⟩
      cases res with
      | error ex =>
        simp only [save_audio, hv, hi, hdle] at hr ⊢
        simp only [Resp.httpError.injEq] at hr
        refine ⟨hr.1.symm, ?_⟩
        rw [← hr.2]
        exact get_applyWrites_concat _ _ _ _
      | ok p =>
        simp only [save_audio, hv, hi, hdle] at hr
        exact Resp.noConfusion hr
  · intro vid hv c m hr
    rcases hdle : eng.download url dir (streamFilenameToUse vid filenameOpt uid8)
      with ⟨evs, res⟩
    cases res with
    | error ex =>
      refine ⟨ex.msg, ?_⟩
      simp only [stream_audio, hv, hdle]
      exact get_applyWrites_concat _ _ _ _
    | ok p =>
      by_cases hmem : p ∈ fsAfter
      · refine ⟨nameErrorMsg, ?_⟩
        simp only [stream_audio, hv, hdle, hmem, if_true]
        exact get_applyWrites_concat _ _ _ _
      · refine ⟨"500: Download failed: File not found after processing", ?_⟩
        simp only [stream_audio, hv, hdle, hmem, if_false]
        exact get_applyWrites_concat2 _ _ _ _ _
  · intro ex hv
    refine ⟨by simp [save_audio, hv], by simp [stream_audio, hv], ?_⟩
    intro s hs habs
    subst hs
    have hw : condErrWrite store0 (some s) ex.msg = [] := by
      simp [condErrWrite, habs]
    constructor
    · simp [save_audio, hv, hw, applyWrites, get_progress, habs]
    · simp [stream_audio, hv, hw, applyWrites, get_progress, habs]

/-- Witness for C1 amended: a metadata failure after successful validation
is recorded as `error` and polled as such. -/
theorem claim1_witness :
    (save_audio engInfoFail parseQ ∅ "/d" "u" false (some "s2") "f8" "ts" "u6" emptyStore).2 =
      .httpError 500 "Video unavailable"
    ∧ get_progress (applyWrites emptyStore
        (save_audio engInfoFail parseQ ∅ "/d" "u" false (some "s2") "f8" "ts" "u6" emptyStore).1)
        "s2" = .error "Video unavailable" := by
  refine ⟨by decide, ?_⟩
  exact ((claim1_amended engInfoFail parseQ ∅ ∅ "/d" "u" false none (some "s2")
    "f8" "ts" "u6" "u8" emptyStore).1 "abc123" rfl 500 "Video unavailable" (by decide)).2

/-- C2 counterexample: a stream run in which the engine succeeds and the
artifact exists never writes a `finished` entry — the write sequence is
`starting, downloading, processing, error` (the terminal `error` coming
from the undefined `cleanup_file` reference), and the post-run poll
observes `error`, not `finished`. -/
theorem claim2_counterexample :
    writeStatuses
      (stream_audio engOK parseQ fsOK "/dl" "u" none (some "s8") "f8" "u8" emptyStore).1 =
      ["starting", "downloading", "processing", "error"]
    ∧ (get_progress (applyWrites emptyStore
        (stream_audio engOK parseQ fsOK "/dl" "u" none (some "s8") "f8" "u8" emptyStore).1)
        "s8").statusStr = "error"
    ∧ (get_progress (applyWrites emptyStore
        (stream_audio engOK parseQ fsOK "/dl" "u" none (some "s8") "f8" "u8" emptyStore).1)
        "s8").statusStr ≠ "finished" := by
  refine ⟨by decide, by decide, by decide⟩

/-- C2 amended: for a successful run whose engine event stream is a list of
`downloading` events with parsable percents followed by the single
`finished` event, save mode writes `starting`, then one `downloading` entry
per event (carrying exactly the engine-reported percents, hence
non-decreasing whenever the engine reports non-decreasing percents), then
exactly one `processing`, then exactly one `finished` recording the
resolved path and filename, and the post-run poll returns that `finished`
entry.  Stream mode instead ends `starting, downloading*, processing,
error`: no `finished` entry is ever written and the poll returns `error`
(the handler fails on the undefined `cleanup_file` before completing). -/
theorem claim2_amended (eng : Engine) (parse : String → Option ℚ) (occ fsAfter : Finset String)
    (dir url : String) (use_hash : Bool) (filenameOpt sidOpt : Option String)
    (freshSid timestamp uid6 uid8 : String) (store0 : Store)
    (vid title outPath : String) (ds : List Event) (fin : Event)
    (hv : eng.validate url = .ok vid)
    (hfin : fin.status = "finished")
    (hds : ∀ d ∈ ds, d.status = "downloading" ∧ (parse (eventPercentStr d)).isSome) :
    (eng.getInfo url = .ok title →
      eng.download url dir (saveOutputBase occ dir vid title use_hash timestamp uid6) =
        (ds ++ [fin], .ok outPath) →
      writeStatuses
          (save_audio eng parse occ dir url use_hash sidOpt freshSid timestamp uid6 store0).1 =
        "starting" :: (List.replicate ds.length "downloading" ++ ["processing", "finished"])
      ∧ writePercents
          (save_audio eng parse occ dir url use_hash sidOpt freshSid timestamp uid6 store0).1 =
          ds.filterMap (fun d => parse (eventPercentStr d))
      ∧ (List.Chain' (· ≤ ·) (ds.filterMap (fun d => parse (eventPercentStr d))) →
          List.Chain' (· ≤ ·) (writePercents
            (save_audio eng parse occ dir url use_hash sidOpt freshSid timestamp uid6 store0).1))
      ∧ (save_audio eng parse occ dir url use_hash sidOpt freshSid timestamp uid6 store0).1.getLast?
          = some (sidOpt.getD freshSid,
              .finished (saveResolvedPath occ dir vid title use_hash timestamp uid6)
                (saveFinalFilename occ dir vid title use_hash timestamp uid6))
      ∧ get_progress (applyWrites store0
          (save_audio eng parse occ dir url use_hash sidOpt freshSid timestamp uid6 store0).1)
          (sidOpt.getD freshSid) =
          .finished (saveResolvedPath occ dir vid title use_hash timestamp uid6)
            (saveFinalFilename occ dir vid title use_hash timestamp uid6))
    ∧ (eng.download url dir (streamFilenameToUse vid filenameOpt uid8) =
        (ds ++ [fin], .ok outPath) →
      outPath ∈ fsAfter →
      writeStatuses
          (stream_audio eng parse fsAfter dir url filenameOpt sidOpt freshSid uid8 store0).1 =
        "starting" :: (List.replicate ds.length "downloading" ++ ["processing", "error"])
      ∧ get_progress (applyWrites store0
          (stream_audio eng parse fsAfter dir url filenameOpt sidOpt freshSid uid8 store0).1)
          (sidOpt.getD freshSid) = .error nameErrorMsg) := by
  obtain ⟨hstat, hpct, _⟩ := hookWrites_downloading parse (sidOpt.getD freshSid) ds hds
  constructor
  · intro hi hdl
    have hw : (save_audio eng parse occ dir url use_hash sidOpt freshSid timestamp uid6 store0).1 =
        (sidOpt.getD freshSid, ProgressEntry.starting) ::
          (hookWrites parse (sidOpt.getD freshSid) ds ++
            [(sidOpt.getD freshSid, ProgressEntry.processing)]) ++
          [(sidOpt.getD freshSid,
            ProgressEntry.finished (saveResolvedPath occ dir vid title use_hash timestamp uid6)
              (saveFinalFilename occ dir vid title use_hash timestamp uid6))] := by
      simp only [save_audio, hv, hi, hdl]
      rw [hookWrites_append, hookWrites_finished parse _ fin hfin]
    have h1 : writeStatuses
        (save_audio eng parse occ dir url use_hash sidOpt freshSid timestamp uid6 store0).1 =
        "starting" :: (List.replicate ds.length "downloading" ++ ["processing", "finished"]) := by
      rw [hw]
      simp only [writeStatuses] at hstat ⊢
      simp only [List.map_cons, List.map_append, List.map_nil]
      rw [hstat]
      all_goals simp [ProgressEntry.statusStr]
    have h2 : writePercents
        (save_audio eng parse occ dir url use_hash sidOpt freshSid timestamp uid6 store0).1 =
        ds.filterMap (fun d => parse (eventPercentStr d)) := by
      rw [hw]
      simp only [writePercents] at hpct ⊢
      simp only [List.filterMap_cons, List.filterMap_append, List.filterMap_nil, entryPercent]
      simpa [entryPercent] using hpct
    refine ⟨h1, h2, fun hch => by rw [h2]; exact hch, ?_, ?_⟩
    · rw [hw, ← List.cons_append, List.getLast?_concat]
    · rw [hw, ← List.cons_append]
      exact get_applyWrites_concat _ _ _ _
  · intro hdl hmem
    have hw : (stream_audio eng parse fsAfter dir url filenameOpt sidOpt freshSid uid8 store0).1 =
        (sidOpt.getD freshSid, ProgressEntry.starting) ::
          (hookWrites parse (sidOpt.getD freshSid) ds ++
            [(sidOpt.getD freshSid, ProgressEntry.processing)]) ++
          [(sidOpt.getD freshSid, ProgressEntry.error nameErrorMsg)] := by
      simp only [stream_audio, hv, hdl, hmem, if_true]
      rw [hookWrites_append, hookWrites_finished parse _ fin hfin]
    constructor
    · rw [hw]
      simp only [writeStatuses] at hstat ⊢
      simp only [List.map_cons, List.map_append, List.map_nil]
      rw [hstat]
      all_goals simp [ProgressEntry.statusStr]
    · rw [hw, ← List.cons_append]
      exact get_applyWrites_concat _ _ _ _

/-- Witness for C2 amended at a concrete successful save run. -/
theorem claim2_witness :
    writeStatuses
      (save_audio engOK parseQ ∅ "/d" "u" false (some "s9") "f8" "ts" "u6" emptyStore).1 =
      ["starting", "downloading", "processing", "finished"]
    ∧ get_progress (applyWrites emptyStore
        (save_audio engOK parseQ ∅ "/d" "u" false (some "s9") "f8" "ts" "u6" emptyStore).1)
        "s9" = .finished "/d/Song Live 2024.mp3" "Song Live 2024.mp3" := by
  have h := (claim2_amended engOK parseQ ∅ fsOK "/d" "u" false none (some "s9") "f8" "ts" "u6"
    "u8" emptyStore "abc123" "Song: Live! 2024" "/dl/out.mp3" [ev50] evFin rfl rfl
    (by decide)).1 rfl rfl
  have hp : saveResolvedPath ∅ "/d" "abc123" "Song: Live! 2024" false "ts" "u6" =
      "/d/Song Live 2024.mp3" := by decide
  have hf : saveFinalFilename ∅ "/d" "abc123" "Song: Live! 2024" false "ts" "u6" =
      "Song Live 2024.mp3" := by decide
  refine ⟨?_, ?_⟩
  · have := h.1
    simpa using this
  · have := h.2.2.2.2
    rw [hp, hf] at this
    exact this

/-- C3 (code bug at `main.py` line 256): the scheduled cleanup callable
`cleanup_file` does not exist, so a stream request in which the engine
succeeded and the artifact exists aborts with a `NameError` translated to a
500 response and an `error` entry — no cleanup of the artifact ever runs.
The only cleanup helper the module defines, `cleanup_session`, does the
opposite of the claim: it removes the Progress Store entry (a later poll
returns `not_started`) and keeps the file. -/
theorem claim3_stream_cleanup_bug :
    (stream_audio engOK parseQ fsOK "/dl" "u" none (some "s3") "f8" "u8" emptyStore).2 =
      .httpError 500 ("Unexpected error: " ++ nameErrorMsg)
    ∧ get_progress (applyWrites emptyStore
        (stream_audio engOK parseQ fsOK "/dl" "u" none (some "s3") "f8" "u8" emptyStore).1)
        "s3" = .error nameErrorMsg
    ∧ get_progress
        (cleanup_session (storeSet emptyStore "s3" (.finished "/dl/out.mp3" "out.mp3")) "s3")
        "s3" = .not_started := by
  refine ⟨by decide, by decide, by decide⟩

/-- C4 (code bug at `main.py` lines 188-196): `except Exception` precedes
`except ValueError`, so the `ValueError` clause is unreachable and an
invalid URL is answered with status 500 carrying the validator's message,
not with the 4xx the claim (and the dead clause) prescribe.  The success
payload and the 5xx-on-internal-failure parts of the claim do hold. -/
theorem claim4_save_http_statuses :
    (save_audio engBadUrl parseQ ∅ "/d" "u" false (some "s4") "f8" "ts" "u6" emptyStore).2 =
      .httpError 500 "Invalid YouTube URL"
    ∧ (save_audio engOK parseQ ∅ "/d" "u" false (some "s5") "f8" "ts" "u6" emptyStore).2 =
        .save { status := "success",
                message := "Saved to /d/Song Live 2024.mp3",
                path := "/d/Song Live 2024.mp3",
                filename := "Song Live 2024.mp3" }
    ∧ (save_audio engInfoFail parseQ ∅ "/d" "u" false (some "s5b") "f8" "ts" "u6" emptyStore).2 =
        .httpError 500 "Video unavailable" := by
  refine ⟨by decide, by decide, by decide⟩

/-- C8 counterexample: in save mode the handler never checks that the
artifact exists — with an empty modelled filesystem (so the expected
artifact is certainly absent) a run whose engine reports success still
returns the success payload and leaves the session `finished`, not
`error`/5xx as the claim asserts for both modes. -/
theorem claim8_counterexample :
    (save_audio engOK parseQ ∅ "/d" "u" false (some "s6") "f8" "ts" "u6" emptyStore).2 =
      .save { status := "success",
              message := "Saved to /d/Song Live 2024.mp3",
              path := "/d/Song Live 2024.mp3",
              filename := "Song Live 2024.mp3" }
    ∧ get_progress (applyWrites emptyStore
        (save_audio engOK parseQ ∅ "/d" "u" false (some "s6") "f8" "ts" "u6" emptyStore).1)
        "s6" = .finished "/d/Song Live 2024.mp3" "Song Live 2024.mp3" := by
  refine ⟨by decide, by decide⟩

/-- C8 amended: only stream mode checks the artifact after an engine
success.  There, a missing artifact yields an `error` entry and a 500
response (whose detail is wrapped twice, because the raised `HTTPException`
is itself caught by the generic `except Exception` clause); save mode
returns the success payload without consulting the filesystem at all. -/
theorem claim8_amended (eng : Engine) (parse : String → Option ℚ) (occ fsAfter : Finset String)
    (dir url : String) (use_hash : Bool) (filenameOpt sidOpt : Option String)
    (freshSid timestamp uid6 uid8 : String) (store0 : Store) (vid : String) :
    (∀ events outPath, eng.validate url = .ok vid →
      eng.download url dir (streamFilenameToUse vid filenameOpt uid8) = (events, .ok outPath) →
      outPath ∉ fsAfter →
      (stream_audio eng parse fsAfter dir url filenameOpt sidOpt freshSid uid8 store0).2 =
        .httpError 500 "Unexpected error: 500: Download failed: File not found after processing"
      ∧ get_progress (applyWrites store0
          (stream_audio eng parse fsAfter dir url filenameOpt sidOpt freshSid uid8 store0).1)
          (sidOpt.getD freshSid) =
          .error "500: Download failed: File not found after processing")
    ∧ (∀ title events outPath, eng.validate url = .ok vid → eng.getInfo url = .ok title →
      eng.download url dir (saveOutputBase occ dir vid title use_hash timestamp uid6) =
        (events, .ok outPath) →
      (save_audio eng parse occ dir url use_hash sidOpt freshSid timestamp uid6 store0).2 =
        .save { status := "success",
                message := "Saved to " ++ saveResolvedPath occ dir vid title use_hash timestamp uid6,
                path := saveResolvedPath occ dir vid title use_hash timestamp uid6,
                filename := saveFinalFilename occ dir vid title use_hash timestamp uid6 }) := by
  constructor
  · intro events outPath hv hdl hmiss
    constructor
    · simp only [stream_audio, hv, hdl, hmiss, if_false]
    · simp only [stream_audio, hv, hdl, hmiss, if_false]
      exact get_applyWrites_concat2 _ _ _ _ _
  · intro title events outPath hv hi hdl
    simp only [save_audio, hv, hi, hdl]

/-- Witness for C8 amended: a concrete stream run whose artifact is missing
from the (empty) filesystem is answered 500 and polled as `error`. -/
theorem claim8_witness :
    (stream_audio engOK parseQ ∅ "/dl" "u" none (some "s10") "f8" "u8" emptyStore).2 =
      .httpError 500 "Unexpected error: 500: Download failed: File not found after processing"
    ∧ get_progress (applyWrites emptyStore
        (stream_audio engOK parseQ ∅ "/dl" "u" none (some "s10") "f8" "u8" emptyStore).1)
        "s10" = .error "500: Download failed: File not found after processing" :=
  (claim8_amended engOK parseQ ∅ ∅ "/dl" "u" false none (some "s10") "f8" "ts" "u6" "u8"
    emptyStore "abc123").1 [ev50, evFin] "/dl/out.mp3" rfl rfl (by decide)

/-- C9 (code bug at `main.py` line 256): the `StreamingResponse` of lines
259-267 — 1 MiB chunks, `Content-Length` equal to the byte size,
`Content-Disposition: attachment` with the resolved filename and
`Cache-Control: no-cache` — is built exactly as the claim describes, but it
is never returned: the undefined `cleanup_file` on the preceding line makes
every successful stream request abort with a 500 `NameError` response. -/
theorem claim9_stream_response_bug :
    (stream_audio engOK parseQ fsOK "/dl" "u" none (some "s11") "f8" "u8" emptyStore).2 =
      .httpError 500 ("Unexpected error: " ++ nameErrorMsg)
    ∧ (∀ n : Nat, (chunkSizes n).sum = n ∧ (chunkSizes n).all (fun c => c ≤ 1048576) = true)
    ∧ intendedStreamResponse "out.mp3" 2097157 =
        .stream [("Content-Disposition", "attachment; filename=\"out.mp3\""),
                 ("Content-Length", "2097157"),
                 ("Cache-Control", "no-cache")]
          [1048576, 1048576, 5] := by
  refine ⟨by decide, ?_, by decide⟩
  intro n
  constructor
  · simp only [chunkSizes, List.sum_append, List.sum_replicate, smul_eq_mul]
    by_cases h : n % 1048576 = 0 <;> simp [h] <;> omega
  · simp only [chunkSizes, List.all_append, Bool.and_eq_true, List.all_eq_true]
    constructor
    · intro c hc
      rw [List.eq_of_mem_replicate hc]
      decide
    · by_cases h : n % 1048576 = 0
      · simp [h]
      · simp only [h, if_false, List.all_cons, List.all_nil, Bool.and_true]
        have := Nat.mod_lt n (y := 1048576) (by omega)
        simp
        omega
